import Mathlib

/-!
Verification development for the simple-llm-service repository.

Shallow embedding of the two core pieces:
* the provider/model resolution and generation engine of the Node
  `LLMServiceManager` (`getClientForRequest`, `getModelName`,
  `resolveInstructorMode`, `generate`, `generateText`) together with the
  `POST /api/generate` Express handler, and
* the SQLite-backed log store (`logCall`, `getLogs`, `countLogs`,
  `parseJsonSafe`) plus the retention operations of §4.4 of the spec
  (`purge`, `setLocked`, `deleteOne`), which are not among the provided
  sources and are therefore modelled from the spec where noted.

External platform functions (`JSON.parse`, `JSON.stringify`, the schema
compiler `stringToZodSchema`, the network transport) are parameters of the
embedding; JavaScript truthiness of the source's `||` / `if (x)` idioms is
made explicit through the `js*` helpers below.
-/

/-- JavaScript truthiness of a string-or-undefined value (`undefined` and
`""` are falsy). -/
def jsTruthyS : Option String → Bool
  | none => false
  | some s => s != ""

/-- JavaScript `a || d` where `a` is a string-or-undefined expression and
`d` a string: the left operand is returned when truthy, otherwise `d`. -/
def jsOrStr (a : Option String) (d : String) : String :=
  match a with
  | none => d
  | some s => if s == "" then d else s

/-- JavaScript `a || b` on two string-or-undefined operands. -/
def jsOrOpt (a b : Option String) : Option String :=
  if jsTruthyS a then a else b

/-- JavaScript `a || null` on a string-or-undefined operand (an empty
string collapses to null). -/
def jsOrNull (a : Option String) : Option String :=
  match a with
  | none => none
  | some s => if s == "" then none else some s

/-- JSON values.  Numbers are modelled as integers; none of the verified
properties computes with numeric payloads. -/
inductive Json where
  | null
  | bool (b : Bool)
  | num (n : Int)
  | str (s : String)
  | arr (xs : List Json)
  | obj (fields : List (String × Json))

/-- JavaScript truthiness of a JSON value (`null`, `false`, `0` and `""`
are falsy; every object and array, including empty ones, is truthy). -/
def jsonTruthy : Json → Bool
  | .null => false
  | .bool b => b
  | .num n => n != 0
  | .str s => s != ""
  | .arr _ => true
  | .obj _ => true

/-- JavaScript truthiness of a JSON-or-undefined value. -/
def jsTruthyJ : Option Json → Bool
  | none => false
  | some j => jsonTruthy j

/-- Property lookup on a JSON value: `obj[k]` for objects, undefined
otherwise. -/
def jlookup (j : Json) (k : String) : Option Json :=
  match j with
  | .obj fields => List.lookup k fields
  | _ => none

/-- JavaScript `x || \x7b\x7d` on a JSON-or-undefined operand, as used by
`logCall` before stringifying (`data.metadata`, `data.response_meta`). -/
def jsObjOr (o : Option Json) : Json :=
  match o with
  | none => Json.obj []
  | some v => if jsonTruthy v then v else Json.obj []

/-- Lowercase an ASCII letter, leaving every other character unchanged.
This is the character folding SQLite's default `LIKE` applies (ASCII
only). -/
def asciiLower (c : Char) : Char :=
  if 'A' ≤ c ∧ c ≤ 'Z' then Char.ofNat (c.toNat + 32) else c

/-- Byte-wise (codepoint-wise) lexicographic `≤` on character lists, the
order SQLite's `memcmp` text comparison induces on UTF-8 strings. -/
def charsLe : List Char → List Char → Bool
  | [], _ => true
  | _ :: _, [] => false
  | c :: cs, d :: ds =>
    if c.toNat < d.toNat then true
    else if d.toNat < c.toNat then false
    else charsLe cs ds

/-- SQLite text comparison `a <= b` (used by the `timestamp >= ?` /
`timestamp <= ?` conditions of `getLogs`). -/
def strLeB (a b : String) : Bool :=
  charsLe a.data b.data

/-- Prefix test on character lists (exact character equality), recursing
on the needle first so that an empty needle matches any haystack. -/
def prefixOfB : List Char → List Char → Bool
  | [], _ => true
  | a :: as, t =>
    match t with
    | [] => false
    | b :: bs => (a == b) && prefixOfB as bs

/-- Substring test on character lists (exact character equality). -/
def infixOfB (n : List Char) : List Char → Bool
  | [] => n.isEmpty
  | c :: hs => prefixOfB n (c :: hs) || infixOfB n hs

/-- JavaScript `s.includes(sub)` (case-sensitive substring test). -/
def strIncludes (s sub : String) : Bool :=
  infixOfB sub.data s.data

/-- Character comparison of SQLite `LIKE`: equal up to ASCII case
folding. -/
def charLikeEq (p c : Char) : Bool :=
  asciiLower p == asciiLower c

/-- Fuelled matcher for SQLite `LIKE` patterns: `%` matches any (possibly
empty) substring, `_` any single character, every other pattern character
matches up to ASCII case folding.  The fuel only drives termination;
`likeM` supplies enough of it. -/
def likeMF : Nat → List Char → List Char → Bool
  | 0, _, _ => false
  | _ + 1, [], t => t.isEmpty
  | fuel + 1, p :: ps, t =>
    if p = '%' then
      likeMF fuel ps t ||
        (match t with
         | [] => false
         | _ :: ts => likeMF fuel (p :: ps) ts)
    else
      match t with
      | [] => false
      | c :: ts => (p == '_' || charLikeEq p c) && likeMF fuel ps ts

/-- SQLite `LIKE` matching on character lists. -/
def likeM (p t : List Char) : Bool :=
  likeMF (p.length + t.length + 1) p t

/-- SQLite `text LIKE pattern` with the default (ASCII case-insensitive)
collation, as evaluated by the `tag LIKE ?` condition of `getLogs`. -/
def sqliteLike (pattern text : String) : Bool :=
  likeM pattern.data text.data

/-- A provider entry of the configuration mapping (`api_key`, `base_url`,
both optional), from the `GlobalConfig` interface of the server. -/
structure ProviderEntry where
  api_key : Option String
  base_url : Option String
deriving DecidableEq

/-- The `providers` mapping of the configuration: provider name to
entry. -/
def ProvidersMap := List (String × ProviderEntry)

/-- The process environment variables consulted by the service. -/
structure Env where
  OPENROUTER_API_KEY : Option String
  OPENAI_API_KEY : Option String
  OPENROUTER_BASE_URL : Option String
deriving DecidableEq

/-- Instructor extraction modes. -/
inductive InstructorMode where
  | TOOLS
  | JSON
  | MD_JSON
  | FUNCTIONS
deriving DecidableEq

/-- `resolveInstructorMode` of `LLMServiceManager`: lowercase the hint and
map it to an instructor mode, defaulting to `TOOLS` (also for `auto` and
for a missing hint). -/
def resolveInstructorMode (mode : Option String) : InstructorMode :=
  match mode.map String.toLower with
  | some "json" => .JSON
  | some "tools" => .TOOLS
  | some "functions" => .FUNCTIONS
  | some "md_json" => .MD_JSON
  | _ => .TOOLS

/-- The hardcoded provider list of `getModelName`. -/
def knownModelPrefixes : List String :=
  ["openrouter", "ollama", "openai", "anthropic"]

/-- JavaScript `s.startsWith(p)`. -/
def strStartsWithB (s p : String) : Bool :=
  prefixOfB p.data s.data

/-- `getModelName` of `LLMServiceManager`: strip the first hardcoded
provider prefix followed by a colon; with no known prefix the identifier
is returned as-is (`s.substring(p.length + 1)` is the character drop). -/
def getModelName (modelId : String) : String :=
  match knownModelPrefixes.find? (fun p => strStartsWithB modelId (p ++ ":")) with
  | some p => String.mk (modelId.data.drop (p.data.length + 1))
  | none => modelId

/-- JavaScript `s.split(sep)[0]`: the segment before the first separator
occurrence (the whole string when the separator does not occur). -/
def jsSplitHead (s : String) (sep : Char) : String :=
  String.mk (s.data.takeWhile (fun c => c ≠ sep))

/-- The provider-name selection of `getClientForRequest`: when the model
identifier contains `/` or `:`, split on `:` when present else on `/`,
and use the first segment when it is a key of the providers mapping;
otherwise the default `openrouter`. -/
def getProviderName (model : String) (providers : ProvidersMap) : String :=
  if model.data.contains '/' || model.data.contains ':' then
    let sep : Char := if model.data.contains ':' then ':' else '/'
    let p0 := jsSplitHead model sep
    if (List.lookup p0 providers).isSome then p0 else "openrouter"
  else "openrouter"

/-- The local-provider test of `getClientForRequest`: name `ollama`, or a
base URL containing `localhost` or `127.0.0.1` (a missing base URL is not
local). -/
def isLocalProvider (name : String) (cfg : ProviderEntry) : Bool :=
  name == "ollama" ||
    (match cfg.base_url with
     | some u => strIncludes u "localhost" || strIncludes u "127.0.0.1"
     | none => false)

/-- The observable endpoint configuration of a constructed client:
API key, base URL, instructor mode, and whether the request fell back to
the process-wide default client. -/
structure ClientInfo where
  providerName : String
  apiKey : String
  baseURL : Option String
  mode : InstructorMode
  viaDefault : Bool
deriving DecidableEq

/-- The process-wide default client of the `LLMServiceManager`
constructor: environment-configured OpenRouter endpoint, API key falling
back to the literal string `undefined`, instructor mode `TOOLS`. -/
def defaultClientInfo (env : Env) : ClientInfo :=
  { providerName := "openrouter"
    apiKey := jsOrStr env.OPENROUTER_API_KEY (jsOrStr env.OPENAI_API_KEY "undefined")
    baseURL := some (jsOrStr env.OPENROUTER_BASE_URL "https://openrouter.ai/api/v1")
    mode := .TOOLS
    viaDefault := true }

/-- `getClientForRequest` of `LLMServiceManager`.  With no providers
mapping, a fresh default-configured client with the requested mode; with
one, resolve the provider name, fall back to the environment key for
openrouter, and when the key is still missing for a non-local provider
return the process-wide default client (mode `TOOLS`); a missing key for
a local provider is replaced by the dummy key `ollama`. -/
def getClientForRequest (env : Env) (model : String)
    (providers : Option ProvidersMap) (mode : Option String) : ClientInfo :=
  match providers with
  | none =>
    { providerName := "openrouter"
      apiKey := jsOrStr env.OPENROUTER_API_KEY (jsOrStr env.OPENAI_API_KEY "undefined")
      baseURL := some (jsOrStr env.OPENROUTER_BASE_URL "https://openrouter.ai/api/v1")
      mode := resolveInstructorMode mode
      viaDefault := false }
  | some ps =>
    let name := getProviderName model ps
    let cfg := (List.lookup name ps).getD { api_key := none, base_url := none }
    let apiKey0 := jsOrOpt cfg.api_key
      (if name == "openrouter" then env.OPENROUTER_API_KEY else none)
    if !jsTruthyS apiKey0 && !isLocalProvider name cfg then
      defaultClientInfo env
    else
      { providerName := name
        apiKey := if !jsTruthyS apiKey0 then "ollama" else apiKey0.getD ""
        baseURL := jsOrOpt cfg.base_url
          (if name == "openrouter" then some "https://openrouter.ai/api/v1" else none)
        mode := resolveInstructorMode mode
        viaDefault := false }

/-- The `defaultConfig.providers` mapping of the server source. -/
def defaultProviders : ProvidersMap :=
  [("openrouter",
    { api_key := some "", base_url := some "https://openrouter.ai/api/v1" }),
   ("ollama",
    { api_key := none, base_url := some "http://localhost:11434/v1" })]

/-- One observable provider invocation issued by the engine (kind is
`"text"` or `"structured"`, with the model name and prompt sent). -/
structure ProviderCall where
  kind : String
  model : String
  prompt : String
deriving DecidableEq

/-- Outcome of one structured provider attempt, as seen through
instructor: a payload parsed successfully, a payload that failed
descriptor validation, or a transport-level failure (thrown). -/
inductive CallOutcome where
  | ok (payload : Json)
  | invalid (diag : String)
  | transportError (msg : String)

/-- Result of a plain completion call: the (possibly null) message
content and the usage object of the completion envelope. -/
structure TextCompletion where
  content : Option String
  usage : Option Json

/-- The network/provider behaviour an engine run observes: the outcome of
the plain completion call, and the outcome of the i-th structured
attempt.  This abstracts the transport the source reaches through the
OpenAI/instructor clients. -/
structure ProviderOracle where
  text : Except String TextCompletion
  structured : Nat → CallOutcome

/-- A generation request as accepted by `LLMServiceManager.generate`. -/
structure GenerateRequest where
  model : String
  prompt : String
  response_format : Option String
  schema : Option String
  mode : Option String
  providers : Option ProvidersMap

/-- A generation response (`GenerateResponse` of the source).
`response_meta := none` models the key being absent, `some .null` the key
present with value null. -/
structure GenerateResponse where
  status : String
  data : Option Json
  error : Option String
  usage : Option Json
  response_meta : Option Json

/-- An engine run: the response returned plus the trace of provider
calls issued (empty when no network call was attempted). -/
structure GenOutcome where
  response : GenerateResponse
  calls : List ProviderCall

/-- The `_meta` split of `generate`: when the parsed result is an object
carrying a `_meta` key, remove that key (`const ( _meta, ...data )`) and
surface its value separately; otherwise the result is returned unchanged
with a null side-channel. -/
def splitMeta (result : Json) : Json × Json :=
  match result with
  | .obj fields =>
    match List.lookup "_meta" fields with
    | some m => (.obj (fields.filter (fun kv => kv.1 != "_meta")), m)
    | none => (result, .null)
  | _ => (result, .null)

/-- Modelled from the spec: the bounded retry loop that
`client.chat.completions.create` with `max_retries` performs inside
`@instructor-ai/instructor` (the library is not among the provided
sources).  Per §4.3 of the spec: at most the bounded number of attempts
in total, a retry happens only when the output fails descriptor
validation (re-sending the same request), transport errors fail
immediately, and exhausting the bound fails with the last validation
diagnostic.  Returns the number of attempts made and the result. -/
def instructorLoop (oracle : Nat → CallOutcome) :
    Nat → Nat → Nat × Except String Json
  | 0, _ => (0, Except.error "no attempts")
  | fuel + 1, attempt =>
    match oracle attempt with
    | .ok j => (1, Except.ok j)
    | .transportError m => (1, Except.error m)
    | .invalid d =>
      if fuel == 0 then
        (1, Except.error ("validation failed after retries: " ++ d))
      else
        let r := instructorLoop oracle fuel (attempt + 1)
        (r.1 + 1, r.2)

/-- `generateText` of `LLMServiceManager`: one plain completion call with
the stripped model name; the trimmed-content extraction
`completion.choices[0]?.message?.content || ''` on success, the thrown
message as an error response on failure. -/
def generateText (oracle : ProviderOracle) (req : GenerateRequest)
    (_client : ClientInfo) : GenOutcome :=
  let modelName := getModelName req.model
  let call : ProviderCall :=
    { kind := "text", model := modelName, prompt := req.prompt }
  match oracle.text with
  | Except.error m =>
    { response :=
        { status := "error", data := none, error := some m
          usage := none, response_meta := none }
      calls := [call] }
  | Except.ok tc =>
    { response :=
        { status := "success", data := some (Json.str (jsOrStr tc.content ""))
          error := none, usage := tc.usage, response_meta := none }
      calls := [call] }

/-- `generate` of `LLMServiceManager`.  `compile` stands for the external
schema compiler `stringToZodSchema` (@mchen-lab/string-to-zod, not among
the sources); the structured branch is taken when `req.schema` is truthy
and `response_format` is not `"text"`, a compile failure returns
immediately with no provider call, and the structured call goes through
the bounded instructor retry loop (`max_retries: 3`). -/
def llmGenerate (compile : String → Except String Unit) (env : Env)
    (oracle : ProviderOracle) (req : GenerateRequest) : GenOutcome :=
  let client := getClientForRequest env req.model req.providers req.mode
  if jsTruthyS req.schema && !(req.response_format == some "text") then
    match compile (req.schema.getD "") with
    | Except.error m =>
      { response :=
          { status := "error", data := none
            error := some ("Invalid schema syntax: " ++ m)
            usage := none, response_meta := none }
        calls := [] }
    | Except.ok _ =>
      let modelName := getModelName req.model
      let call : ProviderCall :=
        { kind := "structured", model := modelName, prompt := req.prompt }
      let res := instructorLoop oracle.structured 3 0
      match res.2 with
      | Except.error m =>
        { response :=
            { status := "error", data := none, error := some m
              usage := none, response_meta := none }
          calls := List.replicate res.1 call }
      | Except.ok j =>
        let split := splitMeta j
        { response :=
            { status := "success", data := some split.1, error := none
              usage := some (Json.obj [("total_tokens", Json.num 0)])
              response_meta := some split.2 }
          calls := List.replicate res.1 call }
  else generateText oracle req client

/-- Modelled from the spec: `stringToZodSchema` is external; this concrete
instance captures the §4.1 failure clauses the concrete test inputs rely
on — compiling an empty schema fails, and a schema without any
`name ':' typeExpr` separator cannot parse a field spec and fails. -/
def specSchemaCompile (s : String) : Except String Unit :=
  if s == "" then Except.error "empty schema"
  else if s.data.contains ':' then Except.ok ()
  else Except.error "missing field separator"

/-- The request body of `POST /api/generate` as destructured by the
handler. -/
structure ApiRequestBody where
  model : Option String
  prompt : String
  response_format : Option String
  schema : Option String
  tag : Option String
  mode : Option String

/-- The argument record of a `logCall` invocation (the log record before
the store assigns id/timestamp/locked and stringifies the JSON
columns). -/
structure LogInsert where
  model : Option String
  prompt : String
  response : Json
  duration_ms : Int
  error : Option String
  metadata : Json
  response_meta : Option Json
  tag : Option String

/-- An HTTP response of the handler: status code and JSON body. -/
structure HttpResponse where
  status : Nat
  body : Json

/-- The `( format, schema )` metadata object the handler logs; an
undefined member is dropped, as `JSON.stringify` would drop it. -/
def mkMetadata (format schema : Option String) : Json :=
  Json.obj
    ((match format with
      | some f => [("format", Json.str f)]
      | none => []) ++
     (match schema with
      | some s => [("schema", Json.str s)]
      | none => []))

/-- The tail of the `POST /api/generate` handler (after
`const result = await llmService.generate(...)`): on error, log a record
with null response and answer 500 with the detail; on success, log the
data and the side-channel, and answer with
`( data, response_meta )` when `result.response_meta` is truthy, else
with the bare data. -/
def handleGenResult (result : GenerateResponse) (body : ApiRequestBody)
    (durationMs : Int) : HttpResponse × LogInsert :=
  if result.status == "error" then
    ({ status := 500
       body := Json.obj
         (match result.error with
          | some e => [("detail", Json.str e)]
          | none => []) },
     { model := body.model, prompt := body.prompt, response := Json.null
       duration_ms := durationMs, error := jsOrNull result.error
       metadata := mkMetadata body.response_format body.schema
       response_meta := none, tag := body.tag })
  else
    ({ status := 200
       body :=
         if jsTruthyJ result.response_meta then
           Json.obj
             [("data", (result.data).getD Json.null),
              ("response_meta", (result.response_meta).getD Json.null)]
         else (result.data).getD Json.null },
     { model := body.model, prompt := body.prompt
       response := (result.data).getD Json.null
       duration_ms := durationMs, error := none
       metadata := mkMetadata body.response_format body.schema
       response_meta := result.response_meta, tag := body.tag })

/-- The `POST /api/generate` handler: build the engine request (model and
mode defaulted through `||`, the configured providers mapping passed
along) and dispatch on the engine result. -/
def handleGenerate (compile : String → Except String Unit) (env : Env)
    (oracle : ProviderOracle) (cfg : ProvidersMap) (body : ApiRequestBody)
    (durationMs : Int) : HttpResponse × LogInsert :=
  let req : GenerateRequest :=
    { model := jsOrStr body.model "gpt-4o"
      prompt := body.prompt
      response_format := body.response_format
      schema := body.schema
      mode := some (jsOrStr body.mode "auto")
      providers := some cfg }
  handleGenResult (llmGenerate compile env oracle req).response body durationMs

/-- A row of the `logs` table (`db.ts`): the JSON-bearing columns
(`response`, `metadata`, `response_meta`) are TEXT, `locked` a boolean
flag, `model`/`tag`/`error` nullable TEXT. -/
structure LogRow where
  id : Nat
  timestamp : String
  model : Option String
  prompt : String
  response : String
  duration_ms : Int
  error : Option String
  metadata : String
  response_meta : String
  locked : Bool
  tag : Option String
deriving DecidableEq

/-- The log store state: the table rows plus the next AUTOINCREMENT
id. -/
structure Db where
  rows : List LogRow
  nextId : Nat
deriving DecidableEq

/-- `logCall` of `db.ts`: insert a row with a fresh id, the supplied (or
current) timestamp, `locked = 0`, and the JSON columns stringified
(`stringify` stands for the platform `JSON.stringify`;
`metadata`/`response_meta` go through `x || \x7b\x7d` first). -/
def logCall (stringify : Json → String) (db : Db) (ins : LogInsert)
    (now : String) : Db :=
  { rows := db.rows ++
      [{ id := db.nextId
         timestamp := now
         model := ins.model
         prompt := ins.prompt
         response := stringify ins.response
         duration_ms := ins.duration_ms
         error := ins.error
         metadata := stringify (jsObjOr (some ins.metadata))
         response_meta := stringify (jsObjOr ins.response_meta)
         locked := false
         tag := ins.tag }]
    nextId := db.nextId + 1 }

/-- The filters record of `getLogs`/`countLogs`. -/
structure Filters where
  tag : Option String
  start_date : Option String
  end_date : Option String

/-- The WHERE clause built by `getLogs`/`countLogs`: each condition is
added only when its filter is truthy; `tag LIKE '%' || t || '%'` (false
on a NULL tag), `timestamp >= start_date`, `timestamp <= end_date`. -/
def rowMatches (fl : Filters) (r : LogRow) : Bool :=
  (if jsTruthyS fl.tag then
     match r.tag with
     | some tg => sqliteLike ("%" ++ fl.tag.getD "" ++ "%") tg
     | none => false
   else true) &&
  (if jsTruthyS fl.start_date then strLeB (fl.start_date.getD "") r.timestamp
   else true) &&
  (if jsTruthyS fl.end_date then strLeB r.timestamp (fl.end_date.getD "")
   else true)

/-- Insert a row into a list sorted by id descending (the sorting step of
`ORDER BY id DESC`). -/
def insertDesc (r : LogRow) : List LogRow → List LogRow
  | [] => [r]
  | s :: ss => if s.id ≤ r.id then r :: s :: ss else s :: insertDesc r ss

/-- Sort rows by id descending (`ORDER BY id DESC`). -/
def sortByIdDesc : List LogRow → List LogRow
  | [] => []
  | r :: rs => insertDesc r (sortByIdDesc rs)

/-- `parseJsonSafe` of `db.ts`: parse the stored text, returning the raw
string itself when parsing fails (`parse` stands for the platform
`JSON.parse`, returning none where the source would throw). -/
def parseJsonSafe (parse : String → Option Json) (s : String) : Json :=
  match parse s with
  | some j => j
  | none => Json.str s

/-- A log entry as returned by `getLogs`: the row with the JSON columns
parsed (safely) and `locked` coerced to a boolean. -/
structure LogEntry where
  id : Nat
  timestamp : String
  model : Option String
  prompt : String
  response : Json
  duration_ms : Int
  error : Option String
  metadata : Json
  response_meta : Json
  locked : Bool
  tag : Option String

/-- The row-to-entry mapping of `getLogs`. -/
def rowToEntry (parse : String → Option Json) (r : LogRow) : LogEntry :=
  { id := r.id
    timestamp := r.timestamp
    model := r.model
    prompt := r.prompt
    response := parseJsonSafe parse r.response
    duration_ms := r.duration_ms
    error := r.error
    metadata := parseJsonSafe parse r.metadata
    response_meta := parseJsonSafe parse r.response_meta
    locked := r.locked
    tag := r.tag }

/-- `getLogs` of `db.ts`: filter by the WHERE clause, order by id
descending, apply OFFSET then LIMIT, and map each row through the safe
JSON parsing. -/
def getLogs (parse : String → Option Json) (limit offset : Nat)
    (fl : Filters) (db : Db) : List LogEntry :=
  ((((sortByIdDesc (db.rows.filter (rowMatches fl)))).drop offset).take limit).map
    (rowToEntry parse)

/-- `countLogs` of `db.ts`: the number of rows matching the same WHERE
clause, regardless of pagination. -/
def countLogs (fl : Filters) (db : Db) : Nat :=
  (db.rows.filter (rowMatches fl)).length

/-- A retention policy of §4.4: `keepLastN n`, or `keepSinceDays` with
the cutoff timestamp `now - d days` (the ISO cutoff is computed by the
caller; date arithmetic is outside the store). -/
inductive PurgePolicy where
  | keepLastN (n : Nat)
  | keepSinceDays (cutoff : String)
deriving DecidableEq

/-- Modelled from the spec: the store's `purge` operation is not among
the provided sources (`db.ts` exports only
`logCall`/`getLogs`/`countLogs`/`getUniqueTags`); modelled from §4.4.
`keepLastN n` deletes the unlocked rows outside the `n` newest-by-id
unlocked ones and keeps every locked row unconditionally;
`keepSinceDays` deletes the unlocked rows strictly older than the
cutoff, never a locked row. -/
def purge : PurgePolicy → Db → Db
  | .keepLastN n, db =>
    let unlocked := db.rows.filter (fun r => !r.locked)
    let keepIds := ((sortByIdDesc unlocked).take n).map (fun r => r.id)
    { db with rows := db.rows.filter (fun r => r.locked || keepIds.contains r.id) }
  | .keepSinceDays cutoff, db =>
    { db with rows := db.rows.filter (fun r => r.locked || strLeB cutoff r.timestamp) }

/-- Modelled from the spec: `setLocked` of §4.4 — toggle the lock flag of
one record, `NotFoundError` when the id does not exist. -/
def setLockedStore (id : Nat) (b : Bool) (db : Db) : Except String Db :=
  if db.rows.any (fun r => r.id == id) then
    Except.ok { db with rows := db.rows.map (fun r => if r.id == id then { r with locked := b } else r) }
  else Except.error "NotFoundError"

/-- Modelled from the spec: `deleteOne` of §4.4 — delete one record by
id, permitted regardless of lock state, `NotFoundError` when absent. -/
def deleteOneStore (id : Nat) (db : Db) : Except String Db :=
  if db.rows.any (fun r => r.id == id) then
    Except.ok { db with rows := db.rows.filter (fun r => r.id != id) }
  else Except.error "NotFoundError"

/-- A store operation, for stating store-wide invariants over arbitrary
operation sequences. -/
inductive StoreOp where
  | append (ins : LogInsert) (now : String)
  | setLock (id : Nat) (b : Bool)
  | delOne (id : Nat)
  | purgeOp (p : PurgePolicy)

/-- Apply one store operation (a failed keyed operation leaves the store
unchanged). -/
def applyOp (stringify : Json → String) : StoreOp → Db → Db
  | .append ins now, db => logCall stringify db ins now
  | .setLock id b, db =>
    match setLockedStore id b db with
    | Except.ok db2 => db2
    | Except.error _ => db
  | .delOne id, db =>
    match deleteOneStore id db with
    | Except.ok db2 => db2
    | Except.error _ => db
  | .purgeOp p, db => purge p db

/-- Apply a sequence of store operations. -/
def applyOps (stringify : Json → String) (ops : List StoreOp) (db : Db) : Db :=
  ops.foldl (fun d op => applyOp stringify op d) db

/-- Spec-side definition (§8, for the refinement comparison of the query
claim): `needle` occurs in `haystack` as a case-sensitive substring. -/
def specCaseSensitiveContains (needle haystack : String) : Bool :=
  infixOfB needle.data haystack.data

/-- Spec-side definition (§4.2, for the refinement comparison of the
resolution claim): a provider name is known when it is `openrouter`,
`ollama`, or a key present in the configuration. -/
def specKnownProvider (cfg : ProvidersMap) (p : String) : Bool :=
  p == "openrouter" || p == "ollama" || (List.lookup p cfg).isSome

/-- Row constructor for concrete store states used in the tests below. -/
def mkRow (id : Nat) (ts : String) (locked : Bool) (tag : Option String) : LogRow :=
  { id := id
    timestamp := ts
    model := none
    prompt := ""
    response := "null"
    duration_ms := 0
    error := none
    metadata := "null"
    response_meta := "null"
    locked := locked
    tag := tag }

theorem mem_insertDesc {a r : LogRow} {l : List LogRow} :
    a ∈ insertDesc r l ↔ a = r ∨ a ∈ l := by
  induction l with
  | nil => simp [insertDesc]
  | cons s ss ih =>
    simp only [insertDesc]
    split
    · simp
    · simp only [List.mem_cons, ih]
      tauto

theorem mem_sortByIdDesc {a : LogRow} {l : List LogRow} :
    a ∈ sortByIdDesc l ↔ a ∈ l := by
  induction l with
  | nil => simp [sortByIdDesc]
  | cons r rs ih => simp [sortByIdDesc, mem_insertDesc, ih]

theorem pairwise_insertDesc {r : LogRow} {l : List LogRow}
    (h : l.Pairwise (fun a b => b.id ≤ a.id)) :
    (insertDesc r l).Pairwise (fun a b => b.id ≤ a.id) := by
  induction l with
  | nil => simp [insertDesc]
  | cons s ss ih =>
    simp only [insertDesc]
    rcases h with _ | ⟨hs, hss⟩
    split
    · refine List.Pairwise.cons ?_ (List.Pairwise.cons hs hss)
      intro b hb
      rcases List.mem_cons.mp hb with rfl | hb
      · omega
      · have := hs b hb
        omega
    · rename_i hlt
      refine List.Pairwise.cons ?_ (ih hss)
      intro b hb
      rcases mem_insertDesc.mp hb with rfl | hb
      · omega
      · exact hs b hb

theorem pairwise_sortByIdDesc (l : List LogRow) :
    (sortByIdDesc l).Pairwise (fun a b => b.id ≤ a.id) := by
  induction l with
  | nil => simp [sortByIdDesc]
  | cons r rs ih => exact pairwise_insertDesc ih

/-- C1.  Purge never deletes a locked record under any policy — for every
store state (hence for every state reached by any sequence of store
operations), a record whose locked flag is true survives `purge` under
both `keepLastN` and `keepSinceDays`; and for every single store
operation, a locked record's id can only disappear from the store when
the operation is the explicit single-record deletion of that id. -/
theorem claim_C1_purge_never_deletes_locked
    (db : Db) (p : PurgePolicy) (op : StoreOp)
    (stringify : Json → String) (r : LogRow)
    (hr : r ∈ db.rows) (hl : r.locked = true) :
    r ∈ (purge p db).rows ∧
      ((∃ s ∈ (applyOp stringify op db).rows, s.id = r.id) ∨
        op = StoreOp.delOne r.id) := by
  constructor
  · cases p with
    | keepLastN n =>
      simp only [purge]
      exact List.mem_filter.mpr ⟨hr, by simp [hl]⟩
    | keepSinceDays cutoff =>
      simp only [purge]
      exact List.mem_filter.mpr ⟨hr, by simp [hl]⟩
  · cases op with
    | append ins now =>
      refine Or.inl ⟨r, ?_, rfl⟩
      simp [applyOp, logCall]
      exact Or.inl hr
    | setLock id b =>
      refine Or.inl ?_
      by_cases hc : (db.rows.any (fun s => s.id == id)) = true
      · simp only [applyOp, setLockedStore, if_pos hc]
        refine ⟨if r.id == id then { r with locked := b } else r, ?_, ?_⟩
        · exact List.mem_map_of_mem _ hr
        · split <;> rfl
      · simp only [applyOp, setLockedStore, if_neg hc]
        exact ⟨r, hr, rfl⟩
    | delOne id =>
      by_cases hid : id = r.id
      · exact Or.inr (by rw [hid])
      · refine Or.inl ⟨r, ?_, rfl⟩
        by_cases hc : (db.rows.any (fun s => s.id == id)) = true
        · simp only [applyOp, deleteOneStore, if_pos hc]
          refine List.mem_filter.mpr ⟨hr, ?_⟩
          simp
          omega
        · simp only [applyOp, deleteOneStore, if_neg hc]
          exact hr
    | purgeOp p2 =>
      refine Or.inl ⟨r, ?_, rfl⟩
      cases p2 with
      | keepLastN n =>
        simp only [applyOp, purge]
        exact List.mem_filter.mpr ⟨hr, by simp [hl]⟩
      | keepSinceDays cutoff =>
        simp only [applyOp, purge]
        exact List.mem_filter.mpr ⟨hr, by simp [hl]⟩

/-- Concrete store: one locked record (id 1, oldest) and five unlocked
ones (ids 2–6). -/
def exPurgeDb : Db :=
  { rows :=
      [mkRow 1 "2024-01-01T00:00:00Z" true none,
       mkRow 2 "2024-01-02T00:00:00Z" false none,
       mkRow 3 "2024-01-03T00:00:00Z" false none,
       mkRow 4 "2024-01-04T00:00:00Z" false none,
       mkRow 5 "2024-01-05T00:00:00Z" false none,
       mkRow 6 "2024-01-06T00:00:00Z" false none]
    nextId := 7 }

theorem claim_C1_purge_never_deletes_locked_witness :
    mkRow 1 "2024-01-01T00:00:00Z" true none ∈
      (purge (PurgePolicy.keepLastN 2) exPurgeDb).rows ∧
      ((∃ s ∈ (applyOp (fun _ => "null")
          (StoreOp.setLock 1 false) exPurgeDb).rows, s.id = 1) ∨
        StoreOp.setLock 1 false = StoreOp.delOne 1) :=
  claim_C1_purge_never_deletes_locked exPurgeDb (PurgePolicy.keepLastN 2)
    (StoreOp.setLock 1 false) (fun _ => "null")
    (mkRow 1 "2024-01-01T00:00:00Z" true none)
    (by decide) (by decide)

/-- C8.  `purge (keepLastN n)` keeps every locked record unconditionally,
and an unlocked record survives exactly when it is among the first `n`
of the unlocked records sorted newest-first by id (assuming the
store-assigned ids are distinct). -/
theorem claim_C8_keepLastN_characterisation
    (db : Db) (n : Nat)
    (hnodup : (db.rows.map (fun r => r.id)).Nodup)
    (r : LogRow) (hr : r ∈ db.rows) :
    (r.locked = true → r ∈ (purge (PurgePolicy.keepLastN n) db).rows) ∧
    (r.locked = false →
      (r ∈ (purge (PurgePolicy.keepLastN n) db).rows ↔
        r ∈ (sortByIdDesc (db.rows.filter (fun s => !s.locked))).take n)) := by
  constructor
  · intro hl
    simp only [purge]
    exact List.mem_filter.mpr ⟨hr, by simp [hl]⟩
  · intro hl
    simp only [purge]
    rw [List.mem_filter]
    constructor
    · rintro ⟨-, hcond⟩
      rw [hl] at hcond
      simp only [Bool.false_or] at hcond
      have hid : r.id ∈
          ((sortByIdDesc (db.rows.filter (fun s => !s.locked))).take n).map
            (fun s => s.id) := by
        rw [← List.elem_iff]
        exact hcond
      obtain ⟨s, hs, hsid⟩ := List.mem_map.mp hid
      have hs2 : s ∈ db.rows := by
        have := List.take_subset n _ hs
        exact (List.mem_filter.mp (mem_sortByIdDesc.mp this)).1
      have : s = r := List.inj_on_of_nodup_map hnodup hs2 hr hsid
      rwa [this] at hs
    · intro hk
      refine ⟨hr, ?_⟩
      rw [hl]
      simp only [Bool.false_or]
      exact List.elem_iff.mpr (List.mem_map_of_mem (fun s => s.id) hk)

theorem claim_C8_keepLastN_characterisation_witness :
    ((exPurgeDb.rows.map (fun r => r.id)).Nodup ∧
      mkRow 1 "2024-01-01T00:00:00Z" true none ∈
        (purge (PurgePolicy.keepLastN 2) exPurgeDb).rows) ∧
      (purge (PurgePolicy.keepLastN 2) exPurgeDb).rows.length = 3 ∧
      (purge (PurgePolicy.keepLastN 2) exPurgeDb).rows =
        [mkRow 1 "2024-01-01T00:00:00Z" true none,
         mkRow 5 "2024-01-05T00:00:00Z" false none,
         mkRow 6 "2024-01-06T00:00:00Z" false none] :=
  ⟨⟨by decide,
    (claim_C8_keepLastN_characterisation exPurgeDb 2 (by decide)
      (mkRow 1 "2024-01-01T00:00:00Z" true none) (by decide)).1 (by decide)⟩,
   by decide, by decide⟩

/-- C10.  Reading records back through `getLogs` is total: every returned
entry comes from a stored row via the safe parsing map, and whenever a
persisted `response`, `metadata` or `response_meta` column fails to parse
as JSON, the raw stored string is returned for that field instead of the
read failing. -/
theorem claim_C10_query_total_safe_parse
    (parse : String → Option Json) (limit offset : Nat) (fl : Filters)
    (db : Db) (e : LogEntry) (he : e ∈ getLogs parse limit offset fl db) :
    ∃ r ∈ db.rows, e = rowToEntry parse r ∧
      (parse r.response = none → e.response = Json.str r.response) ∧
      (parse r.metadata = none → e.metadata = Json.str r.metadata) ∧
      (parse r.response_meta = none → e.response_meta = Json.str r.response_meta) := by
  obtain ⟨r, hr, rfl⟩ := List.mem_map.mp he
  have hr2 : r ∈ db.rows := by
    have h1 := List.take_subset _ _ hr
    have h2 := List.drop_subset _ _ h1
    exact (List.mem_filter.mp (mem_sortByIdDesc.mp h2)).1
  exact ⟨r, hr2, rfl,
    fun hp => by simp [rowToEntry, parseJsonSafe, hp],
    fun hp => by simp [rowToEntry, parseJsonSafe, hp],
    fun hp => by simp [rowToEntry, parseJsonSafe, hp]⟩

/-- A stored row whose JSON columns hold text that does not parse as
JSON. -/
def exMalformedRow : LogRow :=
  { mkRow 1 "2024-02-01T00:00:00Z" false none with
    response := "not json", metadata := "also not json", response_meta := "12,34" }

/-- A store holding only the malformed row. -/
def exMalformedDb : Db :=
  { rows := [exMalformedRow], nextId := 2 }

/-- The never-succeeding parse stands in for `JSON.parse` on inputs that
all fail. -/
def parseNone : String → Option Json := fun _ => none

theorem claim_C10_query_total_safe_parse_witness :
    rowToEntry parseNone exMalformedRow ∈
      getLogs parseNone 50 0
        { tag := none, start_date := none, end_date := none } exMalformedDb ∧
    ∃ r ∈ exMalformedDb.rows,
      rowToEntry parseNone exMalformedRow = rowToEntry parseNone r ∧
      (parseNone r.response = none →
        (rowToEntry parseNone exMalformedRow).response = Json.str r.response) ∧
      (parseNone r.metadata = none →
        (rowToEntry parseNone exMalformedRow).metadata = Json.str r.metadata) ∧
      (parseNone r.response_meta = none →
        (rowToEntry parseNone exMalformedRow).response_meta =
          Json.str r.response_meta) :=
  ⟨List.Mem.head _,
   claim_C10_query_total_safe_parse parseNone 50 0
     { tag := none, start_date := none, end_date := none } exMalformedDb
     (rowToEntry parseNone exMalformedRow) (List.Mem.head _)⟩

theorem likeMF_congr : ∀ (f1 f2 : Nat) (p t : List Char),
    p.length + t.length < f1 → p.length + t.length < f2 →
    likeMF f1 p t = likeMF f2 p t := by
  intro f1
  induction f1 with
  | zero => intro f2 p t h1 _; omega
  | succ a ih =>
    intro f2 p t h1 h2
    cases f2 with
    | zero => omega
    | succ b =>
      cases p with
      | nil => rfl
      | cons p ps =>
        by_cases hp : p = '%'
        · subst hp
          cases t with
          | nil =>
            show (likeMF a ps [] || false) = (likeMF b ps [] || false)
            rw [ih b ps []
              (by simp only [List.length_cons, List.length_nil] at h1 ⊢; omega)
              (by simp only [List.length_cons, List.length_nil] at h2 ⊢; omega)]
          | cons c ts =>
            show (likeMF a ps (c :: ts) || likeMF a ('%' :: ps) ts) =
              (likeMF b ps (c :: ts) || likeMF b ('%' :: ps) ts)
            rw [ih b ps (c :: ts)
                (by simp only [List.length_cons] at h1 ⊢; omega)
                (by simp only [List.length_cons] at h2 ⊢; omega),
              ih b ('%' :: ps) ts
                (by simp only [List.length_cons] at h1 ⊢; omega)
                (by simp only [List.length_cons] at h2 ⊢; omega)]
        · cases t with
          | nil =>
            show (if p = '%' then (likeMF a ps [] || false) else false) =
              (if p = '%' then (likeMF b ps [] || false) else false)
            rw [if_neg hp, if_neg hp]
          | cons c ts =>
            show (if p = '%' then
                    (likeMF a ps (c :: ts) || likeMF a (p :: ps) ts)
                  else ((p == '_' || charLikeEq p c) && likeMF a ps ts)) =
              (if p = '%' then
                    (likeMF b ps (c :: ts) || likeMF b (p :: ps) ts)
                  else ((p == '_' || charLikeEq p c) && likeMF b ps ts))
            rw [if_neg hp, if_neg hp,
              ih b ps ts
                (by simp only [List.length_cons] at h1 ⊢; omega)
                (by simp only [List.length_cons] at h2 ⊢; omega)]

theorem likeM_nil_p (t : List Char) : likeM [] t = t.isEmpty := rfl

theorem likeM_star (ps t : List Char) :
    likeM ('%' :: ps) t =
      (likeM ps t ||
        (match t with
         | [] => false
         | _ :: ts => likeM ('%' :: ps) ts)) := by
  cases t with
  | nil => rfl
  | cons c ts =>
    show (likeMF (('%' :: ps).length + (c :: ts).length) ps (c :: ts) ||
          likeMF (('%' :: ps).length + (c :: ts).length) ('%' :: ps) ts) =
        (likeM ps (c :: ts) || likeM ('%' :: ps) ts)
    rw [likeMF_congr (('%' :: ps).length + (c :: ts).length)
        (ps.length + (c :: ts).length + 1) ps (c :: ts)
        (by simp only [List.length_cons]; omega)
        (by omega),
      likeMF_congr (('%' :: ps).length + (c :: ts).length)
        (('%' :: ps).length + ts.length + 1) ('%' :: ps) ts
        (by simp only [List.length_cons]; omega)
        (by omega)]
    rfl

theorem likeM_lit_nil (p : Char) (ps : List Char) (hp : p ≠ '%') :
    likeM (p :: ps) [] = false := by
  show (if p = '%' then
          (likeMF ((p :: ps).length + 0) ps [] || false)
        else false) = false
  rw [if_neg hp]

theorem likeM_lit_cons (p : Char) (ps : List Char) (c : Char) (ts : List Char)
    (hp : p ≠ '%') :
    likeM (p :: ps) (c :: ts) =
      ((p == '_' || charLikeEq p c) && likeM ps ts) := by
  show (if p = '%' then
          (likeMF ((p :: ps).length + (c :: ts).length) ps (c :: ts) ||
            likeMF ((p :: ps).length + (c :: ts).length) (p :: ps) ts)
        else
          ((p == '_' || charLikeEq p c) &&
            likeMF ((p :: ps).length + (c :: ts).length) ps ts)) =
      ((p == '_' || charLikeEq p c) && likeM ps ts)
  rw [if_neg hp,
    likeMF_congr ((p :: ps).length + (c :: ts).length)
      (ps.length + ts.length + 1) ps ts
      (by simp only [List.length_cons]; omega)
      (by omega)]
  rfl

theorem likeM_tailstar (t : List Char) : likeM ['%'] t = true := by
  induction t with
  | nil => rfl
  | cons c ts ih =>
    rw [likeM_star]
    simp [ih]

theorem likeM_seg (f : List Char) (hf : ∀ c ∈ f, c ≠ '%' ∧ c ≠ '_') :
    ∀ t : List Char,
      likeM (f ++ ['%']) t = prefixOfB (f.map asciiLower) (t.map asciiLower) := by
  induction f with
  | nil =>
    intro t
    simp only [List.nil_append, likeM_tailstar, List.map_nil]
    cases t <;> rfl
  | cons p ps ih =>
    intro t
    have hp := hf p (List.mem_cons_self p ps)
    cases t with
    | nil =>
      rw [List.cons_append, likeM_lit_nil p (ps ++ ['%']) hp.1]
      rfl
    | cons c ts =>
      rw [List.cons_append, likeM_lit_cons p (ps ++ ['%']) c ts hp.1]
      have hp2 : (p == '_') = false := by
        simp only [beq_eq_false_iff_ne, ne_eq]
        exact hp.2
      rw [hp2, Bool.false_or,
        ih (fun d hd => hf d (List.mem_cons_of_mem p hd)) ts]
      show (charLikeEq p c && _) = ((asciiLower p == asciiLower c) && _)
      rw [charLikeEq]

theorem likeM_starseg (f : List Char) (hf : ∀ c ∈ f, c ≠ '%' ∧ c ≠ '_') :
    ∀ t : List Char,
      likeM ('%' :: (f ++ ['%'])) t =
        infixOfB (f.map asciiLower) (t.map asciiLower) := by
  intro t
  induction t with
  | nil =>
    rw [likeM_star, likeM_seg f hf]
    cases f <;> rfl
  | cons c ts ih =>
    rw [likeM_star, likeM_seg f hf]
    show (_ || likeM ('%' :: (f ++ ['%'])) ts) = _
    rw [ih]
    rfl

/-- SQLite `LIKE '%' || f || '%'` with a wildcard-free filter string is
exactly the ASCII-case-insensitive substring test. -/
theorem sqliteLike_ci_substring (f tg : String)
    (hf : ∀ c ∈ f.data, c ≠ '%' ∧ c ≠ '_') :
    sqliteLike ("%" ++ f ++ "%") tg =
      infixOfB (f.data.map asciiLower) (tg.data.map asciiLower) := by
  have hdata : ("%" ++ f ++ "%").data = '%' :: (f.data ++ ['%']) := by
    rw [String.data_append, String.data_append]
    rfl
  rw [sqliteLike, hdata, likeM_starseg f.data hf tg.data]

theorem charsLe_refl (l : List Char) : charsLe l l = true := by
  induction l with
  | nil => rfl
  | cons c cs ih =>
    rw [charsLe, if_neg (lt_irrefl c.toNat), if_neg (lt_irrefl c.toNat)]
    exact ih

/-- C7 (amended).  `getLogs` returns at most `limit` records, ordered by
id descending; every returned entry comes from a stored row satisfying
the filter; the tag condition is SQLite `LIKE '%' || t || '%'`, which for
a wildcard-free filter string is exactly the ASCII-case-insensitive
substring test (not case-sensitive) and never matches a NULL tag; the
date filters are inclusive bounds under lexical comparison (`strLeB` is
reflexive, so boundary timestamps are kept). -/
theorem claim_C7_amended_query
    (parse : String → Option Json) (limit offset : Nat) (fl : Filters)
    (db : Db) (t tg s : String)
    (ht : ∀ c ∈ t.data, c ≠ '%' ∧ c ≠ '_') :
    ((getLogs parse limit offset fl db).length ≤ limit ∧
     (getLogs parse limit offset fl db).Pairwise (fun a b => b.id ≤ a.id) ∧
     (∀ e ∈ getLogs parse limit offset fl db,
        ∃ r ∈ db.rows, e = rowToEntry parse r ∧ rowMatches fl r = true)) ∧
    (sqliteLike ("%" ++ t ++ "%") tg =
      infixOfB (t.data.map asciiLower) (tg.data.map asciiLower)) ∧
    (∀ r : LogRow, rowMatches fl r = true ↔
      ((jsTruthyS fl.tag = true →
          ∃ tg2, r.tag = some tg2 ∧
            sqliteLike ("%" ++ fl.tag.getD "" ++ "%") tg2 = true) ∧
       (jsTruthyS fl.start_date = true →
          strLeB (fl.start_date.getD "") r.timestamp = true) ∧
       (jsTruthyS fl.end_date = true →
          strLeB r.timestamp (fl.end_date.getD "") = true))) ∧
    strLeB s s = true := by
  refine ⟨⟨?_, ?_, ?_⟩, sqliteLike_ci_substring t tg ht, ?_, charsLe_refl s.data⟩
  · rw [getLogs, List.length_map, List.length_take]
    exact inf_le_left
  · rw [getLogs]
    rw [List.pairwise_map]
    have hs : (((sortByIdDesc (db.rows.filter (rowMatches fl))).drop offset).take limit).Pairwise
        (fun a b => b.id ≤ a.id) := by
      refine List.Pairwise.sublist ?_ (pairwise_sortByIdDesc (db.rows.filter (rowMatches fl)))
      exact (List.take_sublist _ _).trans (List.drop_sublist _ _)
    exact hs.imp (fun h => h)
  · intro e he
    obtain ⟨r, hr, rfl⟩ := List.mem_map.mp he
    have hr1 := List.take_subset _ _ hr
    have hr2 := List.drop_subset _ _ hr1
    have hr3 := List.mem_filter.mp (mem_sortByIdDesc.mp hr2)
    exact ⟨r, hr3.1, rfl, hr3.2⟩
  · intro r
    rw [rowMatches]
    simp only [Bool.and_eq_true]
    constructor
    · rintro ⟨⟨h1, h2⟩, h3⟩
      refine ⟨fun htag => ?_, fun hsd => ?_, fun hed => ?_⟩
      · rw [if_pos htag] at h1
        revert h1
        cases hv : r.tag with
        | none => intro h1; exact absurd h1 (by simp)
        | some tg2 => intro h1; exact ⟨tg2, rfl, h1⟩
      · rwa [if_pos hsd] at h2
      · rwa [if_pos hed] at h3
    · rintro ⟨h1, h2, h3⟩
      refine ⟨⟨?_, ?_⟩, ?_⟩
      · by_cases htag : jsTruthyS fl.tag = true
        · rw [if_pos htag]
          obtain ⟨tg2, hv, hlike⟩ := h1 htag
          rw [hv]
          exact hlike
        · rw [if_neg htag]
      · by_cases hsd : jsTruthyS fl.start_date = true
        · rw [if_pos hsd]; exact h2 hsd
        · rw [if_neg hsd]
      · by_cases hed : jsTruthyS fl.end_date = true
        · rw [if_pos hed]; exact h3 hed
        · rw [if_neg hed]

/-- A stored row tagged with the uppercase tag `ABC`. -/
def exTagRow : LogRow := mkRow 1 "2024-03-01T00:00:00Z" false (some "ABC")

/-- A store holding only the tagged row. -/
def exTagDb : Db := { rows := [exTagRow], nextId := 2 }

theorem claim_C7_counterexample_tag_case :
    getLogs parseNone 50 0
        { tag := some "abc", start_date := none, end_date := none } exTagDb =
      [rowToEntry parseNone exTagRow] ∧
    (rowToEntry parseNone exTagRow).tag = some "ABC" ∧
    specCaseSensitiveContains "abc" "ABC" = false :=
  ⟨rfl, rfl, by decide⟩

theorem claim_C7_amended_query_witness :
    (getLogs parseNone 50 0
        { tag := some "abc", start_date := none, end_date := none }
        exTagDb).length ≤ 50 ∧
    (sqliteLike ("%" ++ "abc" ++ "%") "ABC" =
      infixOfB ("abc".data.map asciiLower) ("ABC".data.map asciiLower)) ∧
    strLeB "2024-03-01" "2024-03-01" = true :=
  ⟨(claim_C7_amended_query parseNone 50 0
      { tag := some "abc", start_date := none, end_date := none }
      exTagDb "abc" "ABC" "2024-03-01" (by decide)).1.1,
   (claim_C7_amended_query parseNone 50 0
      { tag := some "abc", start_date := none, end_date := none }
      exTagDb "abc" "ABC" "2024-03-01" (by decide)).2.1,
   (claim_C7_amended_query parseNone 50 0
      { tag := some "abc", start_date := none, end_date := none }
      exTagDb "abc" "ABC" "2024-03-01" (by decide)).2.2.2⟩

theorem prefixOfB_append_self : ∀ (l x : List Char), prefixOfB l (l ++ x) = true := by
  intro l x
  induction l with
  | nil => rfl
  | cons c cs ih => simp [prefixOfB, ih]

theorem getModelName_strips (p rest : String) (hp : p ∈ knownModelPrefixes) :
    getModelName (p ++ ":" ++ rest) = rest := by
  obtain ⟨rl⟩ := rest
  simp only [knownModelPrefixes, List.mem_cons, List.not_mem_nil, or_false] at hp
  rcases hp with rfl | rfl | rfl | rfl <;> rfl

theorem getModelName_id (m : String)
    (h : ∀ q ∈ knownModelPrefixes, strStartsWithB m (q ++ ":") = false) :
    getModelName m = m := by
  rw [getModelName]
  have hfind : knownModelPrefixes.find?
      (fun q => strStartsWithB m (q ++ ":")) = none := by
    rw [List.find?_eq_none]
    intro q hq
    rw [h q hq]
    simp
  rw [hfind]

theorem takeWhile_all {pred : Char → Bool} :
    ∀ l : List Char, (∀ c ∈ l, pred c = true) → l.takeWhile pred = l := by
  intro l hl
  induction l with
  | nil => rfl
  | cons c cs ih =>
    rw [List.takeWhile_cons, hl c (List.mem_cons_self c cs)]
    rw [ih (fun d hd => hl d (List.mem_cons_of_mem c hd))]
    rfl

theorem strMk_data (s : String) : String.mk s.data = s := by
  obtain ⟨l⟩ := s
  rfl

theorem getProviderName_known (p rest : String) (providers : ProvidersMap)
    (hp : ':' ∉ p.data) :
    getProviderName (p ++ ":" ++ rest) providers =
      if (List.lookup p providers).isSome then p else "openrouter" := by
  have hdata : (p ++ ":" ++ rest).data = p.data ++ ':' :: rest.data := by
    rw [String.data_append, String.data_append, List.append_assoc]
    rfl
  have hcontains : (p ++ ":" ++ rest).data.contains ':' = true := by
    rw [hdata]
    exact List.elem_iff.mpr (by simp)
  have hall : p.data.takeWhile (fun c => decide (c ≠ ':')) = p.data :=
    takeWhile_all p.data (fun c hc => by simp; exact fun h => hp (h ▸ hc))
  have hsplit : jsSplitHead (p ++ ":" ++ rest) ':' = p := by
    rw [jsSplitHead, hdata, List.takeWhile_append, hall]
    simp only [if_pos rfl]
    rw [show (':' :: rest.data).takeWhile (fun c => decide (c ≠ ':')) = [] from rfl]
    rw [List.append_nil]
    exact strMk_data p
  rw [getProviderName, hcontains]
  simp only [Bool.or_true, if_true, hsplit]

theorem getProviderName_noSep (m : String) (providers : ProvidersMap)
    (h1 : ':' ∉ m.data) (h2 : '/' ∉ m.data) :
    getProviderName m providers = "openrouter" := by
  have hc1 : m.data.contains ':' = false := by
    rw [Bool.eq_false_iff]
    intro hcontra
    exact h1 (List.elem_iff.mp hcontra)
  have hc2 : m.data.contains '/' = false := by
    rw [Bool.eq_false_iff]
    intro hcontra
    exact h2 (List.elem_iff.mp hcontra)
  rw [getProviderName, hc1, hc2]
  rfl

/-- C3 (amended).  Provider selection and model-name stripping are
independent mechanisms.  The model name strips the prefix exactly when
the identifier starts with one of the fixed prefixes
`openrouter:`/`ollama:`/`openai:`/`anthropic:` (the rest, further colons
included, passed verbatim) and is the whole identifier otherwise; the
provider is the segment before the first `:` when that segment is a key
of the providers configuration, and the default `openrouter` otherwise
(also for identifiers with no separator). -/
theorem claim_C3_amended_resolution (providers : ProvidersMap) :
    (∀ p rest, p ∈ knownModelPrefixes → getModelName (p ++ ":" ++ rest) = rest) ∧
    (∀ m, (∀ q ∈ knownModelPrefixes, strStartsWithB m (q ++ ":") = false) →
      getModelName m = m) ∧
    (∀ p rest, ':' ∉ p.data →
      getProviderName (p ++ ":" ++ rest) providers =
        if (List.lookup p providers).isSome then p else "openrouter") ∧
    (∀ m, ':' ∉ m.data → '/' ∉ m.data →
      getProviderName m providers = "openrouter") :=
  ⟨fun p rest hp => getModelName_strips p rest hp,
   fun m hm => getModelName_id m hm,
   fun p rest hp => getProviderName_known p rest providers hp,
   fun m h1 h2 => getProviderName_noSep m providers h1 h2⟩

theorem claim_C3_counterexample_fixed_list :
    specKnownProvider defaultProviders "anthropic" = false ∧
    getProviderName ("anthropic" ++ ":" ++ "claude-3") defaultProviders =
      "openrouter" ∧
    getModelName ("anthropic" ++ ":" ++ "claude-3") = "claude-3" ∧
    ("claude-3" : String) ≠ "anthropic:claude-3" :=
  ⟨by decide, by decide, by decide, by decide⟩

theorem claim_C3_amended_resolution_witness :
    getModelName ("ollama" ++ ":" ++ "qwen3:8b") = "qwen3:8b" ∧
    getProviderName ("ollama" ++ ":" ++ "qwen3:8b") defaultProviders =
      (if (List.lookup "ollama" defaultProviders).isSome then "ollama"
       else "openrouter") ∧
    getProviderName "unknownmodel" defaultProviders = "openrouter" :=
  ⟨(claim_C3_amended_resolution defaultProviders).1 "ollama" "qwen3:8b" (by decide),
   (claim_C3_amended_resolution defaultProviders).2.2.1 "ollama" "qwen3:8b" (by decide),
   (claim_C3_amended_resolution defaultProviders).2.2.2 "unknownmodel"
     (by decide) (by decide)⟩

/-- C2 (amended).  When the resolved provider is not local and no API key
is found in its configuration or the environment, `getClientForRequest`
does not fail: it falls back to the process-wide default client (whose
API key is the literal string `undefined` when the environment provides
none), and a generation request then proceeds to issue its provider
network call as usual. -/
theorem claim_C2_amended_missing_key_fallback
    (env : Env) (providers : ProvidersMap) (model prompt : String)
    (mode : Option String) (compile : String → Except String Unit)
    (oracle : ProviderOracle)
    (hkey : jsTruthyS ((List.lookup (getProviderName model providers)
        providers).getD { api_key := none, base_url := none }).api_key = false)
    (henv : jsTruthyS env.OPENROUTER_API_KEY = false)
    (hlocal : isLocalProvider (getProviderName model providers)
      ((List.lookup (getProviderName model providers) providers).getD
        { api_key := none, base_url := none }) = false) :
    getClientForRequest env model (some providers) mode = defaultClientInfo env ∧
    (env.OPENROUTER_API_KEY = none → env.OPENAI_API_KEY = none →
      (defaultClientInfo env).apiKey = "undefined") ∧
    (llmGenerate compile env oracle
        { model := model, prompt := prompt, response_format := none
          schema := none, mode := mode, providers := some providers }).calls =
      [{ kind := "text", model := getModelName model, prompt := prompt }] ∧
    (llmGenerate compile env oracle
        { model := model, prompt := prompt, response_format := none
          schema := none, mode := mode, providers := some providers }).response.status =
      (match oracle.text with
       | Except.ok _ => "success"
       | Except.error _ => "error") := by
  refine ⟨?_, ?_, ?_, ?_⟩
  · simp only [getClientForRequest, jsOrOpt, hkey]
    by_cases hor : (getProviderName model providers == "openrouter") = true
    · simp [hor, henv, hlocal]
    · rw [Bool.not_eq_true] at hor
      simp [hor, hlocal, jsTruthyS]
  · intro h1 h2
    simp [defaultClientInfo, jsOrStr, h1, h2]
  · cases ho : oracle.text <;>
      simp [llmGenerate, generateText, jsTruthyS, ho]
  · cases ho : oracle.text <;>
      simp [llmGenerate, generateText, jsTruthyS, ho]

/-- The empty environment: no API keys, no base URL override. -/
def env0 : Env :=
  { OPENROUTER_API_KEY := none, OPENAI_API_KEY := none
    OPENROUTER_BASE_URL := none }

/-- A provider behaviour whose plain completion succeeds and whose
structured attempts all succeed. -/
def oracle0 : ProviderOracle :=
  { text := Except.ok { content := some "hello", usage := none }
    structured := fun _ => CallOutcome.ok (Json.obj [("x", Json.num 1)]) }

/-- A request whose resolved provider (openrouter) is not local and has
no API key anywhere (the default config carries an empty `api_key`). -/
def exC2req : GenerateRequest :=
  { model := "openrouter:gpt-4o-mini", prompt := "hi", response_format := none
    schema := none, mode := none, providers := some defaultProviders }

theorem claim_C2_counterexample_no_failure :
    (llmGenerate specSchemaCompile env0 oracle0 exC2req).response.status =
      "success" ∧
    (llmGenerate specSchemaCompile env0 oracle0 exC2req).calls.length = 1 ∧
    (getClientForRequest env0 "openrouter:gpt-4o-mini"
      (some defaultProviders) none).viaDefault = true ∧
    (getClientForRequest env0 "openrouter:gpt-4o-mini"
      (some defaultProviders) none).apiKey = "undefined" :=
  ⟨rfl, rfl, by decide, by decide⟩

theorem claim_C2_amended_missing_key_fallback_witness :
    getClientForRequest env0 "openrouter:gpt-4o-mini"
        (some defaultProviders) none = defaultClientInfo env0 ∧
    (llmGenerate specSchemaCompile env0 oracle0
        { model := "openrouter:gpt-4o-mini", prompt := "hi"
          response_format := none, schema := none, mode := none
          providers := some defaultProviders }).calls =
      [{ kind := "text", model := getModelName "openrouter:gpt-4o-mini"
         prompt := "hi" }] :=
  ⟨(claim_C2_amended_missing_key_fallback env0 defaultProviders
      "openrouter:gpt-4o-mini" "hi" none specSchemaCompile oracle0
      (by decide) (by decide) (by decide)).1,
   (claim_C2_amended_missing_key_fallback env0 defaultProviders
      "openrouter:gpt-4o-mini" "hi" none specSchemaCompile oracle0
      (by decide) (by decide) (by decide)).2.2.1⟩

/-- C9 (amended).  An empty prompt is not rejected: the engine performs
no prompt validation, so a text-mode request with `prompt = ""` is
dispatched to the provider with empty user content, and the outcome is
whatever the provider returns. -/
theorem claim_C9_amended_empty_prompt_dispatched
    (compile : String → Except String Unit) (env : Env)
    (oracle : ProviderOracle) (req : GenerateRequest)
    (hprompt : req.prompt = "") (hschema : req.schema = none) :
    (llmGenerate compile env oracle req).calls =
      [{ kind := "text", model := getModelName req.model, prompt := "" }] ∧
    (llmGenerate compile env oracle req).response.status =
      (match oracle.text with
       | Except.ok _ => "success"
       | Except.error _ => "error") := by
  cases ho : oracle.text <;>
    simp [llmGenerate, generateText, hschema, jsTruthyS, ho, hprompt]

/-- A generation request with an empty prompt. -/
def exC9req : GenerateRequest :=
  { model := "ollama:m", prompt := "", response_format := none
    schema := none, mode := none, providers := some defaultProviders }

theorem claim_C9_counterexample_empty_prompt :
    (llmGenerate specSchemaCompile env0 oracle0 exC9req).response.status =
      "success" ∧
    (llmGenerate specSchemaCompile env0 oracle0 exC9req).calls =
      [{ kind := "text", model := "m", prompt := "" }] :=
  ⟨rfl, rfl⟩

theorem claim_C9_amended_empty_prompt_dispatched_witness :
    (llmGenerate specSchemaCompile env0 oracle0 exC9req).calls =
      [{ kind := "text", model := getModelName "ollama:m", prompt := "" }] :=
  (claim_C9_amended_empty_prompt_dispatched specSchemaCompile env0 oracle0
    exC9req rfl rfl).1

/-- C4 (amended).  For a dict-mode request whose schema string is
non-empty and fails to compile, the engine returns an error immediately
with no provider call, and the handler logs that attempt with a null
response (and answers 500); a dict-mode request whose schema string is
empty is treated as having no schema at all and is dispatched to the
provider as a plain-text call (see the counterexample). -/
theorem claim_C4_amended_schema_failure
    (compile : String → Except String Unit) (env : Env)
    (oracle : ProviderOracle) (req : GenerateRequest) (s m : String)
    (hfmt : req.response_format = some "dict")
    (hs : req.schema = some s) (hne : s ≠ "")
    (hc : compile s = Except.error m)
    (result : GenerateResponse) (body : ApiRequestBody) (dur : Int) :
    ((llmGenerate compile env oracle req).response.status = "error" ∧
     (llmGenerate compile env oracle req).response.error =
       some ("Invalid schema syntax: " ++ m) ∧
     (llmGenerate compile env oracle req).calls = []) ∧
    (result.status = "error" →
      ((handleGenResult result body dur).2.response = Json.null ∧
       (handleGenResult result body dur).1.status = 500)) := by
  constructor
  · refine ⟨?_, ?_, ?_⟩ <;>
      simp [llmGenerate, hs, hfmt, jsTruthyS, hne, hc]
  · intro hres
    constructor <;> simp [handleGenResult, hres]

/-- A dict-mode request with an empty schema string. -/
def exC4req : GenerateRequest :=
  { model := "ollama:m", prompt := "p", response_format := some "dict"
    schema := some "", mode := none, providers := some defaultProviders }

theorem claim_C4_counterexample_empty_schema :
    specSchemaCompile "" = Except.error "empty schema" ∧
    (llmGenerate specSchemaCompile env0 oracle0 exC4req).calls =
      [{ kind := "text", model := "m", prompt := "p" }] ∧
    (llmGenerate specSchemaCompile env0 oracle0 exC4req).response.status =
      "success" :=
  ⟨rfl, rfl, rfl⟩

/-- A dict-mode request whose non-empty schema string fails to compile
(no `name ':' type` separator anywhere). -/
def exC4req2 : GenerateRequest :=
  { model := "ollama:m", prompt := "p", response_format := some "dict"
    schema := some "noseparator", mode := none
    providers := some defaultProviders }

/-- The request body matching `exC4req2`. -/
def exBody : ApiRequestBody :=
  { model := some "ollama:m", prompt := "p", response_format := some "dict"
    schema := some "noseparator", tag := none, mode := none }

/-- A representative error result of the engine. -/
def exErrResult : GenerateResponse :=
  { status := "error", data := none
    error := some "Invalid schema syntax: missing field separator"
    usage := none, response_meta := none }

theorem claim_C4_amended_schema_failure_witness :
    ((llmGenerate specSchemaCompile env0 oracle0 exC4req2).response.status =
        "error" ∧
      (llmGenerate specSchemaCompile env0 oracle0 exC4req2).calls = []) ∧
    (handleGenResult exErrResult exBody 0).2.response = Json.null :=
  ⟨⟨(claim_C4_amended_schema_failure specSchemaCompile env0 oracle0 exC4req2
      "noseparator" "missing field separator" rfl rfl (by decide) rfl
      exErrResult exBody 0).1.1,
    (claim_C4_amended_schema_failure specSchemaCompile env0 oracle0 exC4req2
      "noseparator" "missing field separator" rfl rfl (by decide) rfl
      exErrResult exBody 0).1.2.2⟩,
   ((claim_C4_amended_schema_failure specSchemaCompile env0 oracle0 exC4req2
      "noseparator" "missing field separator" rfl rfl (by decide) rfl
      exErrResult exBody 0).2 rfl).1⟩

theorem instructorLoop_spec (oracle : Nat → CallOutcome) :
    ∀ (fuel start : Nat),
      (instructorLoop oracle fuel start).1 ≤ fuel ∧
      (∀ j, j + 1 < (instructorLoop oracle fuel start).1 →
        ∃ d, oracle (start + j) = CallOutcome.invalid d) ∧
      (∀ j m, j < (instructorLoop oracle fuel start).1 →
        oracle (start + j) = CallOutcome.transportError m →
        j + 1 = (instructorLoop oracle fuel start).1 ∧
        (instructorLoop oracle fuel start).2 = Except.error m) := by
  intro fuel
  induction fuel with
  | zero =>
    intro start
    refine ⟨?_, ?_, ?_⟩
    · simp [instructorLoop]
    · intro j hj
      simp [instructorLoop] at hj
    · intro j m hj _
      simp [instructorLoop] at hj
  | succ f ih =>
    intro start
    cases ho : oracle start with
    | ok payload =>
      have hred : instructorLoop oracle (f + 1) start = (1, Except.ok payload) := by
        simp [instructorLoop, ho]
      rw [hred]
      refine ⟨by simp, ?_, ?_⟩
      · intro j hj
        simp at hj
      · intro j m hj hm
        have hj0 : j = 0 := by simp at hj; omega
        subst hj0
        rw [Nat.add_zero, ho] at hm
        cases hm
    | transportError m0 =>
      have hred : instructorLoop oracle (f + 1) start = (1, Except.error m0) := by
        simp [instructorLoop, ho]
      rw [hred]
      refine ⟨by simp, ?_, ?_⟩
      · intro j hj
        simp at hj
      · intro j m hj hm
        have hj0 : j = 0 := by simp at hj; omega
        subst hj0
        rw [Nat.add_zero, ho] at hm
        injection hm with h
        subst h
        exact ⟨rfl, rfl⟩
    | invalid d =>
      cases f with
      | zero =>
        have hred : instructorLoop oracle 1 start =
            (1, Except.error ("validation failed after retries: " ++ d)) := by
          simp [instructorLoop, ho]
        rw [hred]
        refine ⟨by simp, ?_, ?_⟩
        · intro j hj
          simp at hj
        · intro j m hj hm
          have hj0 : j = 0 := by simp at hj; omega
          subst hj0
          rw [Nat.add_zero, ho] at hm
          cases hm
      | succ f2 =>
        have hred : instructorLoop oracle (f2 + 1 + 1) start =
            ((instructorLoop oracle (f2 + 1) (start + 1)).1 + 1,
             (instructorLoop oracle (f2 + 1) (start + 1)).2) := by
          simp [instructorLoop, ho]
        rw [hred]
        obtain ⟨ih1, ih2, ih3⟩ := ih (start + 1)
        refine ⟨by simp; omega, ?_, ?_⟩
        · intro j hj
          simp only [Prod.fst] at hj ⊢
          cases j with
          | zero => exact ⟨d, by rw [Nat.add_zero]; exact ho⟩
          | succ k =>
            have hk : k + 1 < (instructorLoop oracle (f2 + 1) (start + 1)).1 := by
              omega
            obtain ⟨d2, hd2⟩ := ih2 k hk
            refine ⟨d2, ?_⟩
            rw [show start + (k + 1) = start + 1 + k by omega]
            exact hd2
        · intro j m hj hm
          simp only [Prod.fst, Prod.snd] at hj ⊢
          cases j with
          | zero =>
            rw [Nat.add_zero, ho] at hm
            cases hm
          | succ k =>
            have hk : k < (instructorLoop oracle (f2 + 1) (start + 1)).1 := by
              omega
            have hm2 : oracle (start + 1 + k) = CallOutcome.transportError m := by
              rw [show start + 1 + k = start + (k + 1) by omega]
              exact hm
            obtain ⟨he1, he2⟩ := ih3 k m hk hm2
            exact ⟨by omega, he2⟩

/-- C5.  For a dict-mode generation whose schema compiles, the provider
call goes through the bounded instructor retry loop: at most 3 attempts
in total, every attempt before the last re-sends the identical request
and was preceded only by outputs that failed descriptor validation, and
a transport error ends the run immediately (no further attempts) with
the error surfaced as the engine's error status. -/
theorem claim_C5_dict_mode_retry_bound
    (compile : String → Except String Unit) (env : Env)
    (oracle : ProviderOracle) (req : GenerateRequest) (s : String)
    (hfmt : req.response_format = some "dict")
    (hs : req.schema = some s) (hne : s ≠ "")
    (hc : compile s = Except.ok ()) :
    (llmGenerate compile env oracle req).calls.length ≤ 3 ∧
    (llmGenerate compile env oracle req).calls =
      List.replicate (llmGenerate compile env oracle req).calls.length
        { kind := "structured", model := getModelName req.model
          prompt := req.prompt } ∧
    (∀ j, j + 1 < (llmGenerate compile env oracle req).calls.length →
      ∃ d, oracle.structured j = CallOutcome.invalid d) ∧
    (∀ j m, j < (llmGenerate compile env oracle req).calls.length →
      oracle.structured j = CallOutcome.transportError m →
      j + 1 = (llmGenerate compile env oracle req).calls.length ∧
      (llmGenerate compile env oracle req).response.status = "error" ∧
      (llmGenerate compile env oracle req).response.error = some m) := by
  obtain ⟨hle, hinv, htr⟩ := instructorLoop_spec oracle.structured 3 0
  rcases hL : instructorLoop oracle.structured 3 0 with ⟨n0, r0⟩
  rw [hL] at hle hinv htr
  simp only [Prod.fst, Prod.snd] at hle hinv htr
  simp only [Nat.zero_add] at hinv htr
  cases r0 with
  | error m0 =>
    have hout : llmGenerate compile env oracle req =
        { response :=
            { status := "error", data := none, error := some m0
              usage := none, response_meta := none }
          calls := List.replicate n0
            { kind := "structured", model := getModelName req.model
              prompt := req.prompt } } := by
      simp [llmGenerate, hs, hfmt, jsTruthyS, hne, hc, hL]
    rw [hout]
    simp only [List.length_replicate]
    refine ⟨hle, trivial, hinv, ?_⟩
    intro j m hj hm
    obtain ⟨he1, he2⟩ := htr j m hj hm
    injection he2 with he3
    exact ⟨he1, trivial, by rw [he3]⟩
  | ok payload =>
    have hout : llmGenerate compile env oracle req =
        { response :=
            { status := "success", data := some (splitMeta payload).1
              error := none
              usage := some (Json.obj [("total_tokens", Json.num 0)])
              response_meta := some (splitMeta payload).2 }
          calls := List.replicate n0
            { kind := "structured", model := getModelName req.model
              prompt := req.prompt } } := by
      simp [llmGenerate, hs, hfmt, jsTruthyS, hne, hc, hL]
    rw [hout]
    simp only [List.length_replicate]
    refine ⟨hle, trivial, hinv, ?_⟩
    intro j m hj hm
    obtain ⟨-, he2⟩ := htr j m hj hm
    cases he2

/-- A provider behaviour whose first structured attempt fails descriptor
validation and whose second succeeds. -/
def oracleRetry : ProviderOracle :=
  { text := Except.ok { content := some "t", usage := none }
    structured := fun k =>
      if k == 0 then CallOutcome.invalid "missing field"
      else CallOutcome.ok (Json.obj [("x", Json.num 1)]) }

/-- A dict-mode request with a compiling schema. -/
def exC5req : GenerateRequest :=
  { model := "ollama:m", prompt := "p", response_format := some "dict"
    schema := some "x:int", mode := none, providers := some defaultProviders }

theorem claim_C5_dict_mode_retry_bound_witness :
    specSchemaCompile "x:int" = Except.ok () ∧
    (llmGenerate specSchemaCompile env0 oracleRetry exC5req).calls.length ≤ 3 ∧
    (llmGenerate specSchemaCompile env0 oracleRetry exC5req).calls =
      List.replicate
        (llmGenerate specSchemaCompile env0 oracleRetry exC5req).calls.length
        { kind := "structured", model := getModelName "ollama:m"
          prompt := "p" } :=
  ⟨rfl,
   (claim_C5_dict_mode_retry_bound specSchemaCompile env0 oracleRetry exC5req
     "x:int" rfl rfl (by decide) rfl).1,
   (claim_C5_dict_mode_retry_bound specSchemaCompile env0 oracleRetry exC5req
     "x:int" rfl rfl (by decide) rfl).2.1⟩

theorem lookup_filter_ne (fs : List (String × Json)) (k : String)
    (hk : k ≠ "_meta") :
    List.lookup k (fs.filter (fun kv => kv.1 != "_meta")) = List.lookup k fs := by
  induction fs with
  | nil => rfl
  | cons a t ih =>
    by_cases ha : a.1 = "_meta"
    · have hfa : ¬ ((a.1 != "_meta") = true) := by simp [ha]
      rw [List.filter_cons, if_neg hfa]
      have hka : (k == a.1) = false := by simp [ha, hk]
      rw [List.lookup_cons, hka]
      exact ih
    · have hfa : (a.1 != "_meta") = true := by simp [ha]
      rw [List.filter_cons, if_pos hfa]
      rw [List.lookup_cons, List.lookup_cons]
      cases hka : (k == a.1) with
      | true => rfl
      | false => exact ih

theorem lookup_filter_meta (fs : List (String × Json)) :
    List.lookup "_meta" (fs.filter (fun kv => kv.1 != "_meta")) = none := by
  induction fs with
  | nil => rfl
  | cons a t ih =>
    by_cases ha : a.1 = "_meta"
    · have hfa : ¬ ((a.1 != "_meta") = true) := by simp [ha]
      rw [List.filter_cons, if_neg hfa]
      exact ih
    · have hfa : (a.1 != "_meta") = true := by simp [ha]
      rw [List.filter_cons, if_pos hfa]
      rw [List.lookup_cons]
      have hka : (("_meta" : String) == a.1) = false := by
        simp
        exact fun h => ha h.symm
      rw [hka]
      exact ih

/-- C6.  The `_meta` split of a structured result: with no `_meta` key
the payload is returned unchanged with a null side-channel (which is not
truthy, so the handler omits `response_meta` from the HTTP response and
answers with the bare data rather than an empty object); with a `_meta`
key, the side-channel receives exactly its value, every other key keeps
its value in `data`, `data` carries no `_meta` key, and re-inserting the
side-channel under `_meta` restores every lookup of the original
payload (no information is lost). -/
theorem claim_C6_meta_split
    (fs : List (String × Json)) (k : String) (m : Json)
    (result : GenerateResponse) (body : ApiRequestBody) (dur : Int) :
    (List.lookup "_meta" fs = none →
      splitMeta (Json.obj fs) = (Json.obj fs, Json.null) ∧
      jsonTruthy (splitMeta (Json.obj fs)).2 = false) ∧
    (List.lookup "_meta" fs = some m →
      (splitMeta (Json.obj fs)).2 = m ∧
      (k ≠ "_meta" →
        jlookup (splitMeta (Json.obj fs)).1 k = jlookup (Json.obj fs) k) ∧
      jlookup (splitMeta (Json.obj fs)).1 "_meta" = none ∧
      (∀ k2 : String,
        jlookup (Json.obj (("_meta", m) ::
          fs.filter (fun kv => kv.1 != "_meta"))) k2 =
          jlookup (Json.obj fs) k2)) ∧
    (result.status = "success" →
      (jsTruthyJ result.response_meta = false →
        (handleGenResult result body dur).1.body = (result.data).getD Json.null) ∧
      (∀ v, result.response_meta = some v → jsonTruthy v = true →
        (handleGenResult result body dur).1.body =
          Json.obj [("data", (result.data).getD Json.null),
                    ("response_meta", v)])) := by
  refine ⟨?_, ?_, ?_⟩
  · intro h
    constructor <;> simp [splitMeta, h, jsonTruthy]
  · intro h
    refine ⟨by simp [splitMeta, h], ?_, ?_, ?_⟩
    · intro hk
      simp only [splitMeta, h, jlookup]
      exact lookup_filter_ne fs k hk
    · simp only [splitMeta, h, jlookup]
      exact lookup_filter_meta fs
    · intro k2
      by_cases hk2 : k2 = "_meta"
      · subst hk2
        simp only [jlookup, List.lookup_cons]
        rw [show (("_meta" : String) == "_meta") = true by simp]
        simp [h]
      · simp only [jlookup, List.lookup_cons]
        have hne : (k2 == "_meta") = false := by simp [hk2]
        rw [hne]
        simp only [if_false]
        exact lookup_filter_ne fs k2 hk2
  · intro hres
    have hbeq : (result.status == "error") = false := by simp [hres]
    constructor
    · intro hmeta
      simp [handleGenResult, hbeq, hmeta]
    · intro v hv htruthy
      simp [handleGenResult, hbeq, jsTruthyJ, hv, htruthy]

/-- A structured payload carrying a `_meta` side-channel. -/
def exMetaFields : List (String × Json) :=
  [("name", Json.str "A"), ("_meta", Json.obj [("usage", Json.num 5)])]

/-- A successful engine result whose side-channel is null (the
no-`_meta` case of a structured success). -/
def exSuccessNullMeta : GenerateResponse :=
  { status := "success", data := some (Json.str "d"), error := none
    usage := none, response_meta := some Json.null }

theorem claim_C6_meta_split_witness :
    (splitMeta (Json.obj exMetaFields)).2 = Json.obj [("usage", Json.num 5)] ∧
    jlookup (splitMeta (Json.obj exMetaFields)).1 "name" =
      jlookup (Json.obj exMetaFields) "name" ∧
    (handleGenResult exSuccessNullMeta exBody 0).1.body = Json.str "d" :=
  ⟨((claim_C6_meta_split exMetaFields "name" (Json.obj [("usage", Json.num 5)])
      exSuccessNullMeta exBody 0).2.1 rfl).1,
   ((claim_C6_meta_split exMetaFields "name" (Json.obj [("usage", Json.num 5)])
      exSuccessNullMeta exBody 0).2.1 rfl).2.1 (by decide),
   ((claim_C6_meta_split exMetaFields "name" (Json.obj [("usage", Json.num 5)])
      exSuccessNullMeta exBody 0).2.2 rfl).1 rfl⟩
